import Mathlib

/-!
Verification of the `nb-from` CLI (src/index.ts): a tool that creates a note
from another note used as a template.  The pipeline embedded here is the
command handler: fetch the template from the note store, render it against
the command-line variables merged with a date-formatting capability, rewrite
the first Markdown heading line, then either print (dry-run) or create the
note.  Machine strings are Lean `String`s; the only line terminator modelled
is the newline character, matching the `m`-flag semantics of the heading
regex on `\n`-separated text.  The subprocess error streams are modelled as
the raw byte arrays `Deno.Command.output()` returns, because the code passes
them to `console.error` without decoding them.
-/

/-! ## Line splitting and joining

The heading rewrite in src/index.ts is `rendered.replace(/^\#.*$/m, repl)`:
in multiline mode `^` anchors at the start of the text or just after a
newline, `.` excludes the newline, and `$` anchors just before a newline or
at the end, so the regex matches the full content of the first line that
begins with the character `#`.  We model the text as its list of
newline-separated lines. -/

/-- Split a character list on newline characters; always returns at least
one (possibly empty) line, as string splitting does. -/
def splitChars : List Char → List (List Char)
  | [] => [[]]
  | c :: cs =>
    if c = '\n' then [] :: splitChars cs
    else
      match splitChars cs with
      | [] => [[c]]
      | l :: ls => (c :: l) :: ls

/-- Join character-list lines with newline separators. -/
def joinChars : List (List Char) → List Char
  | [] => []
  | [l] => l
  | l :: ls => l ++ '\n' :: joinChars ls

/-- The lines of a string, split on newline characters. -/
def splitLines (s : String) : List String :=
  (splitChars s.data).map String.mk

/-- Rebuild a string from its lines, inserting newline separators. -/
def joinLines (ls : List String) : String :=
  String.mk (joinChars (ls.map String.data))

theorem splitChars_ne_nil (cs : List Char) : splitChars cs ≠ [] := by
  induction cs with
  | nil => simp [splitChars]
  | cons c cs ih =>
    by_cases h : c = '\n'
    · simp [splitChars, h]
    · simp only [splitChars, if_neg h]
      cases hs : splitChars cs with
      | nil => simp
      | cons l ls => simp

theorem joinChars_cons_cons (c : Char) (l : List Char) (ls : List (List Char)) :
    joinChars ((c :: l) :: ls) = c :: joinChars (l :: ls) := by
  cases ls with
  | nil => rfl
  | cons x xs => simp [joinChars]

theorem joinChars_splitChars (cs : List Char) : joinChars (splitChars cs) = cs := by
  induction cs with
  | nil => rfl
  | cons c cs ih =>
    by_cases h : c = '\n'
    · subst h
      simp only [splitChars, if_pos rfl]
      cases hs : splitChars cs with
      | nil => exact absurd hs (splitChars_ne_nil cs)
      | cons l ls =>
        rw [hs] at ih
        simp [joinChars, ih]
    · simp only [splitChars, if_neg h]
      cases hs : splitChars cs with
      | nil => exact absurd hs (splitChars_ne_nil cs)
      | cons l ls =>
        rw [hs] at ih
        rw [joinChars_cons_cons, ih]

theorem joinLines_splitLines (s : String) : joinLines (splitLines s) = s := by
  unfold joinLines splitLines
  rw [List.map_map]
  have hmap : ∀ ls : List (List Char),
      ls.map (String.data ∘ String.mk) = ls := by
    intro ls
    induction ls with
    | nil => rfl
    | cons x xs ih =>
      show String.data (String.mk x) :: xs.map _ = x :: xs
      rw [ih]
  rw [hmap, joinChars_splitChars]

/-! ## The heading rewrite (src/index.ts lines 118-124)

`String.prototype.replace` with a string replacement applies ECMAScript
dollar-substitution (GetSubstitution) to the replacement before splicing it
in: `$$` stands for a dollar sign, `$&` for the matched text, a dollar sign
followed by a backquote for the portion of the string preceding the match,
`$'` for the portion following it; with no capture groups in the regex,
every other occurrence of `$` is literal.  The title branch at
src/index.ts:120 interpolates the user-supplied title into the replacement
string, so this substitution is reachable from the command line. -/

/-- A line matched by `/^\#.*$/m`: its first character is `#`. -/
def isHeading (s : String) : Bool :=
  match s.data with
  | '#' :: _ => true
  | _ => false

/-- Locate the first heading line: returns the lines before it (none of
which is a heading), the matched line, and the lines after it. -/
def findHeading : List String → Option (List String × String × List String)
  | [] => none
  | l :: ls =>
    if isHeading l then some ([], l, ls)
    else
      match findHeading ls with
      | some (pre, m, post) => some (l :: pre, m, post)
      | none => none

/-- The characters of the string portion preceding the match: every line
before the matched one, each followed by its newline. -/
def beforeChars : List (List Char) → List Char
  | [] => []
  | l :: ls => l ++ '\n' :: beforeChars ls

/-- The characters of the string portion following the match: empty when
the matched line is last, otherwise the newline and the remaining lines. -/
def afterChars : List (List Char) → List Char
  | [] => []
  | l :: ls => '\n' :: joinChars (l :: ls)

/-- ECMAScript GetSubstitution for a string replacement under a regex with
no capture groups: `$$` yields `$`, `$&` the matched text, `$` followed by
the backquote character (code 96) the preceding portion, `$` followed by
the apostrophe character (code 39) the following portion; any other `$` is
literal. -/
def expandDollar (matched before after : List Char) : List Char → List Char
  | [] => []
  | c :: rest =>
    if c = '$' then
      match rest with
      | [] => ['$']
      | c2 :: rest2 =>
        if c2 = '$' then '$' :: expandDollar matched before after rest2
        else if c2 = '&' then matched ++ expandDollar matched before after rest2
        else if c2 = Char.ofNat 96 then before ++ expandDollar matched before after rest2
        else if c2 = Char.ofNat 39 then after ++ expandDollar matched before after rest2
        else '$' :: c2 :: expandDollar matched before after rest2
    else c :: expandDollar matched before after rest

/-- `s.replace(/^\#.*$/m, repl)`: if some line of `s` begins with `#`, the
first such line is replaced by the dollar-substitution of `repl` with
respect to that match; identity when no line matches. -/
def replaceFirstHeading (repl s : String) : String :=
  match findHeading (splitLines s) with
  | none => s
  | some (pre, m, post) =>
    String.mk (beforeChars (pre.map String.data)
      ++ expandDollar m.data (beforeChars (pre.map String.data))
          (afterChars (post.map String.data)) repl.data
      ++ afterChars (post.map String.data))

/-- JavaScript truthiness of the optional `title` value: absent and the
empty string are falsy (`if (argv.title)` at line 119). -/
def truthy : Option String → Bool
  | none => false
  | some s => s != ""

/-- The heading-rewrite step of the handler, lines 119-124 of src/index.ts:
if a truthy title was provided replace the first heading with the
replacement string `# ` plus the title, else if `removeTitle` is set replace
it with the empty string, else leave the rendered text unchanged. -/
def rewriteHeading (title : Option String) (removeTitle : Bool) (rendered : String) : String :=
  if truthy title then replaceFirstHeading ("# " ++ title.getD "") rendered
  else if removeTitle then replaceFirstHeading "" rendered
  else rendered

theorem findHeading_none (ls : List String) (h : ∀ x ∈ ls, isHeading x = false) :
    findHeading ls = none := by
  induction ls with
  | nil => rfl
  | cons l ls ih =>
    have hl : isHeading l = false := h l (by simp)
    simp only [findHeading, hl, Bool.false_eq_true, if_false]
    rw [ih fun x hx => h x (by simp [hx])]

theorem findHeading_decomp (pre : List String) (l : String) (post : List String)
    (hpre : ∀ x ∈ pre, isHeading x = false) (hl : isHeading l = true) :
    findHeading (pre ++ l :: post) = some (pre, l, post) := by
  induction pre with
  | nil => simp [findHeading, hl]
  | cons x xs ih =>
    have hx : isHeading x = false := hpre x (by simp)
    simp only [List.cons_append, findHeading, hx, Bool.false_eq_true, if_false]
    rw [List.append_eq, ih fun y hy => hpre y (by simp [hy])]

theorem joinChars_cons_ne (l : List Char) (ls : List (List Char)) (h : ls ≠ []) :
    joinChars (l :: ls) = l ++ '\n' :: joinChars ls := by
  cases ls with
  | nil => exact absurd rfl h
  | cons x xs => rfl

theorem joinChars_decomp (pre : List (List Char)) (l : List Char)
    (post : List (List Char)) :
    joinChars (pre ++ l :: post) = beforeChars pre ++ l ++ afterChars post := by
  induction pre with
  | nil =>
    cases post with
    | nil => simp [joinChars, beforeChars, afterChars]
    | cons p ps =>
      rw [List.nil_append, joinChars_cons_ne l (p :: ps) (by simp)]
      simp [beforeChars, afterChars]
  | cons x xs ih =>
    rw [List.cons_append, joinChars_cons_ne x (xs ++ l :: post) (by simp), ih]
    simp [beforeChars, List.append_assoc]

theorem joinLines_decomp (pre : List String) (l : String) (post : List String) :
    joinLines (pre ++ l :: post)
      = String.mk (beforeChars (pre.map String.data) ++ l.data
          ++ afterChars (post.map String.data)) := by
  unfold joinLines
  rw [List.map_append, List.map_cons, joinChars_decomp]

theorem expandDollar_no_dollar (m b a rl : List Char) (h : '$' ∉ rl) :
    expandDollar m b a rl = rl := by
  induction rl with
  | nil => rfl
  | cons c rest ih =>
    have hc : ¬c = '$' := by
      intro hcc
      exact h (by rw [hcc]; exact List.mem_cons_self _ _)
    have hrest : '$' ∉ rest := fun hm => h (List.mem_cons_of_mem _ hm)
    cases rest with
    | nil => simp [expandDollar, if_neg hc]
    | cons c2 r2 =>
      simp only [expandDollar, if_neg hc]
      rw [ih hrest]

theorem replaceFirstHeading_decomp (repl s : String) (pre : List String)
    (l : String) (post : List String)
    (hsplit : splitLines s = pre ++ l :: post)
    (hpre : ∀ x ∈ pre, isHeading x = false) (hl : isHeading l = true) :
    replaceFirstHeading repl s
      = String.mk (beforeChars (pre.map String.data)
          ++ expandDollar l.data (beforeChars (pre.map String.data))
              (afterChars (post.map String.data)) repl.data
          ++ afterChars (post.map String.data)) := by
  unfold replaceFirstHeading
  rw [hsplit, findHeading_decomp pre l post hpre hl]

theorem replaceFirstHeading_no_heading (repl s : String)
    (h : ∀ x ∈ splitLines s, isHeading x = false) :
    replaceFirstHeading repl s = s := by
  unfold replaceFirstHeading
  rw [findHeading_none _ h]

/-! ## The template renderer

`renderTemplate` in src/index.ts delegates to the eta library with
`useWith: true`; eta is an external dependency whose code is not in the
repository, so its contract is embedded from the spec (section 4.2). -/

/-- A value in the render scope: the string command-line variables, the
boolean flags, or the date-formatting capability stored under the reserved
name. -/
inductive Value where
  | str : String → Value
  | bool : Bool → Value
  | momentFn : Value
deriving DecidableEq

/-- Modelled from the spec: an eta template is a sequence of literal text
chunks and embedded expressions; an output expression either emits a bare
variable's value or calls the date-formatting function with a format-string
argument (the eta parser itself is library code absent from src/). -/
inductive Chunk where
  | text : String → Chunk
  | var : String → Chunk
  | momentCall : String → Chunk
deriving DecidableEq

/-- Look a name up in the render scope; the first binding wins, so an entry
placed in front overrides later ones. -/
def lookupVar (scope : List (String × Value)) (n : String) : Option Value :=
  match scope with
  | [] => none
  | p :: ps => if p.1 == n then some p.2 else lookupVar ps n

/-- Modelled from the spec: rendering one chunk in a "with"-style scope.
`fmt` is the date-formatting capability: given a format string it yields the
formatted current date.  A bare variable resolves against the scope; an
undefined reference is a rendering error, never a silent empty string. -/
def renderChunk (fmt : String → String) (scope : List (String × Value)) :
    Chunk → Except String String
  | .text t => .ok t
  | .var n =>
    match lookupVar scope n with
    | some (.str v) => .ok v
    | some (.bool b) => .ok (if b then "true" else "false")
    | some .momentFn => .error ("cannot emit the date function " ++ n ++ " as text")
    | none => .error ("undefined variable " ++ n)
  | .momentCall f =>
    match lookupVar scope "moment" with
    | some .momentFn => .ok (fmt f)
    | some _ => .error "moment is not a function"
    | none => .error "undefined variable moment"

/-- Modelled from the spec: rendering is synchronous, single-pass and pure;
the chunks' outputs are concatenated, and the first rendering error aborts
the whole render. -/
def renderTemplate (fmt : String → String) (scope : List (String × Value)) :
    List Chunk → Except String String
  | [] => .ok ""
  | c :: cs =>
    match renderChunk fmt scope c with
    | .error e => .error e
    | .ok s =>
      match renderTemplate fmt scope cs with
      | .error e => .error e
      | .ok r => .ok (s ++ r)

/-! ## The command-line parameters and the render scope -/

/-- The parsed command-line invocation (the yargs `argv` object): the two
positional parameters, the `date`, `title`, `removeTitle` and `dry-run`
options, and the open-ended extra `--name value` variables. -/
structure Argv where
  template : String
  note : String
  date : String
  title : Option String
  removeTitle : Bool
  dryRun : Bool
  extra : List (String × String)
deriving DecidableEq

/-- The variable bindings contributed by `argv` itself (the `...argv` spread
at line 114 of src/index.ts): every named option and every extra
command-line variable, the `title` key being present only when the option
was supplied. -/
def argvVars (a : Argv) : List (String × Value) :=
  [("template", Value.str a.template), ("note", Value.str a.note),
   ("date", Value.str a.date)]
  ++ (match a.title with
      | some t => [("title", Value.str t)]
      | none => [])
  ++ [("removeTitle", Value.bool a.removeTitle), ("dry-run", Value.bool a.dryRun)]
  ++ a.extra.map (fun p => (p.1, Value.str p.2))

/-- The scope passed to the renderer, `{ ...argv, moment }` at lines 113-116
of src/index.ts: the spread of `argv` merged with the date-formatting
function under the reserved name `moment`; the binding written last in the
object literal wins, which the head position encodes here. -/
def scopeOf (a : Argv) : List (String × Value) :=
  ("moment", Value.momentFn) :: argvVars a

/-! ## The external note store and the command handler

The `nb` program is the external note store (spec section 4.1); the handler
observes only the exit code and the output streams of its two subprocess
calls, so those calls are embedded as oracles supplied to the handler.
`Deno.Command.output()` returns the streams as byte arrays; the code decodes
the fetched standard output (`new TextDecoder().decode(...)`, line 113) but
passes the error streams to `console.error` undecoded (lines 108 and 137),
so the error streams are modelled as byte lists. -/

/-- The observed result of `getTemplate` (the `nb show` subprocess): its
exit code, the decoded standard output parsed into template chunks, and the
raw bytes of its error stream. -/
structure FetchResult where
  code : Nat
  template : List Chunk
  stderr : List Nat
deriving DecidableEq

/-- The observed result of `createNote` (the `nb add` subprocess): its exit
code and the raw bytes of its error stream. -/
structure WriteResult where
  code : Nat
  stderr : List Nat
deriving DecidableEq

/-- The decimal renderings of the bytes, comma-separated, as a console
inspect rendering lists them. -/
def commaSepBytes : List Nat → String
  | [] => ""
  | [b] => toString b
  | b :: bs => toString b ++ ", " ++ commaSepBytes bs

/-- What `console.error` prints for a `Uint8Array` argument: the inspect
rendering `Uint8Array(n) [ b0, b1, ... ]` of the byte values, not their
UTF-8 decoding (long arrays are additionally truncated by the console; the
byte arrays considered here are short enough to be printed in full). -/
def inspectBytes (bs : List Nat) : String :=
  match bs with
  | [] => "Uint8Array(0) []"
  | _ => "Uint8Array(" ++ toString bs.length ++ ") [ " ++ commaSepBytes bs ++ " ]"

/-- UTF-8 decoding restricted to ASCII byte values, enough to express the
diagnostic text carried by the concrete error streams considered here. -/
def asciiDecode (bs : List Nat) : String :=
  String.mk (bs.map Char.ofNat)

/-- The terminal observation of one run of the command handler
(src/index.ts lines 102-142). -/
inductive Outcome where
  /-- the template fetch failed: its raw stderr bytes are passed to
  `console.error`, exit 1 -/
  | fetchError : List Nat → Outcome
  /-- rendering threw: the handler has no catch, so the run aborts with an
  uncaught error before the heading rewrite -/
  | renderError : String → Outcome
  /-- dry-run: the final text goes to stdout verbatim, exit 0 -/
  | dryRun : String → Outcome
  /-- the note creation failed: its raw stderr bytes are passed to
  `console.error`, exit 1 -/
  | writeError : List Nat → Outcome
  /-- the note was created with the given filename and content -/
  | created : String → String → Outcome
deriving DecidableEq

/-- The process exit code of an outcome; a rendering error aborts the run
through the runtime's uncaught-error path, whose code the handler does not
choose. -/
def Outcome.exitCode : Outcome → Option Nat
  | .fetchError _ => some 1
  | .renderError _ => none
  | .dryRun _ => some 0
  | .writeError _ => some 1
  | .created _ _ => some 0

/-- Whether the note store's write operation was invoked in this run. -/
def Outcome.writeCalled : Outcome → Bool
  | .writeError _ => true
  | .created _ _ => true
  | _ => false

/-- What the run printed on standard output: the final text on dry-run, the
confirmation line on creation, nothing otherwise. -/
def Outcome.stdoutText : Outcome → String
  | .dryRun t => t
  | .created _ _ => "Note created.\n"
  | _ => ""

/-- What the run printed on the error stream.  On the two subprocess failure
branches the code hands the undecoded byte array to `console.error`, so the
error stream receives the inspect rendering of the bytes, not the decoded
diagnostic text. -/
def Outcome.stderrText : Outcome → String
  | .fetchError bs => inspectBytes bs
  | .renderError m => m
  | .writeError bs => inspectBytes bs
  | _ => ""

/-- The command handler, src/index.ts lines 102-142: fetch the template
(exit 1 on failure), render it against the argv scope, rewrite the first
heading, then either print the result (dry-run, exit 0) or create the note
(exit 1 on failure, confirmation message on success).  `fetch` is the
observed result of the `nb show` call and `write` the oracle for the
`nb add` call. -/
def runCommand (fmt : String → String) (fetch : FetchResult)
    (write : String → String → WriteResult) (a : Argv) : Outcome :=
  if fetch.code ≠ 0 then .fetchError fetch.stderr
  else
    match renderTemplate fmt (scopeOf a) fetch.template with
    | .error e => .renderError e
    | .ok rendered =>
      let final := rewriteHeading a.title a.removeTitle rendered
      if a.dryRun then .dryRun final
      else
        let w := write a.note final
        if w.code ≠ 0 then .writeError w.stderr
        else .created a.note final

/-- Modelled from the spec: the `--date` option's resolution in the
argument-parsing layer (yargs) and the current-date default it computes with
the date capability (moment) are library code absent from src/; per the
spec the parameter is a string and, when the option is not supplied, it
defaults to the current date as formatted ISO-like by the date-formatting
capability. -/
def resolveDate (currentDateIso : String) (supplied : Option String) : String :=
  match supplied with
  | some d => d
  | none => currentDateIso

/-! ## Claim theorems: the heading rewrite -/

/-- C3 counterexample: the claim fails for the supplied title `$&`: the
replacement string undergoes ECMAScript dollar-substitution, so `$&` pastes
the matched heading line and the first line of the result is `# # Old`, not
the claimed `# $&`. -/
theorem c3_dollar_title_counterexample :
    rewriteHeading (some "$&") true "# Old\nbody" = "# # Old\nbody"
    ∧ rewriteHeading (some "$&") true "# Old\nbody" ≠ joinLines ["# $&", "body"] := by
  decide

/-- C3 (amended): for every rendered text and every supplied truthy title
containing no dollar character, the heading rewrite replaces only the first
line beginning with `#` by the line `# ` followed by the title; every line
before it (none of which matches) and every line after it, later
`#`-prefixed lines included, is unchanged.  (For titles containing `$`,
ECMAScript dollar-substitution rewrites the replacement, see the
counterexample.) -/
theorem c3_title_replaces_only_first_heading (t ti : String) (rt : Bool)
    (pre : List String) (l : String) (post : List String)
    (hsplit : splitLines t = pre ++ l :: post)
    (hpre : ∀ x ∈ pre, isHeading x = false)
    (hl : isHeading l = true)
    (hti : ti ≠ "")
    (hnd : '$' ∉ ti.data) :
    rewriteHeading (some ti) rt t = joinLines (pre ++ ("# " ++ ti) :: post) := by
  have htruth : truthy (some ti) = true := by
    simp [truthy, hti]
  unfold rewriteHeading
  rw [htruth]
  simp only [if_true]
  show replaceFirstHeading ("# " ++ ti) t = _
  have hrepl : '$' ∉ ("# " ++ ti).data := by
    show ('$' ∈ '#' :: ' ' :: ti.data) → False
    intro hmem
    rcases List.mem_cons.mp hmem with h1 | hmem2
    · exact absurd h1 (by decide)
    · rcases List.mem_cons.mp hmem2 with h2 | hmem3
      · exact absurd h2 (by decide)
      · exact hnd hmem3
  rw [replaceFirstHeading_decomp _ t pre l post hsplit hpre hl,
    expandDollar_no_dollar _ _ _ _ hrepl, joinLines_decomp]

/-- Witness for C3 at the spec's own example: first matching line
`# Old Title` and title `New` give first line `# New`, with the body and the
later heading untouched. -/
theorem c3_title_replaces_only_first_heading_witness :
    rewriteHeading (some "New") true "# Old Title\nbody\n# Later"
      = joinLines ["# New", "body", "# Later"] :=
  c3_title_replaces_only_first_heading "# Old Title\nbody\n# Later" "New" true
    [] "# Old Title" ["body", "# Later"] (by decide) (by decide) (by decide)
    (by decide) (by decide)

/-- C4: when no title is supplied, the rewrite with `removeTitle = true`
replaces the content of the first `#`-prefixed line by the empty string,
keeping the surrounding newline structure; with `removeTitle = false` the
rendered text is returned completely unmodified. -/
theorem c4_removeTitle_branch (t : String)
    (pre : List String) (l : String) (post : List String)
    (hsplit : splitLines t = pre ++ l :: post)
    (hpre : ∀ x ∈ pre, isHeading x = false)
    (hl : isHeading l = true) :
    rewriteHeading none true t = joinLines (pre ++ "" :: post)
    ∧ rewriteHeading none false t = t := by
  constructor
  · show replaceFirstHeading "" t = _
    rw [replaceFirstHeading_decomp "" t pre l post hsplit hpre hl,
      joinLines_decomp]
    rfl
  · rfl

/-- Witness for C4 on `a\n# T\nb`: removal empties the heading line keeping
both newlines, and `removeTitle = false` is the identity. -/
theorem c4_removeTitle_branch_witness :
    rewriteHeading none true "a\n# T\nb" = joinLines ["a", "", "b"]
    ∧ rewriteHeading none false "a\n# T\nb" = "a\n# T\nb" :=
  c4_removeTitle_branch "a\n# T\nb" ["a"] "# T" ["b"] (by decide) (by decide)
    (by decide)

/-- C7: heading removal (`removeTitle = true`, no title) is conditionally
idempotent: whenever the result of one application has no line beginning
with `#` left, a second application returns that result unchanged. -/
theorem c7_heading_removal_idempotent (t : String)
    (h : ∀ x ∈ splitLines (rewriteHeading none true t), isHeading x = false) :
    rewriteHeading none true (rewriteHeading none true t)
      = rewriteHeading none true t := by
  show replaceFirstHeading "" (rewriteHeading none true t) = _
  exact replaceFirstHeading_no_heading _ _ h

/-- Witness for C7 on `# a\nb`: one removal gives `\nb`, which has no
heading line, and the second pass is a no-op. -/
theorem c7_heading_removal_idempotent_witness :
    rewriteHeading none true (rewriteHeading none true "# a\nb")
      = rewriteHeading none true "# a\nb" :=
  c7_heading_removal_idempotent "# a\nb" (by decide)

/-- C10: an empty-string title is falsy in the handler's `if (argv.title)`
test, so it behaves exactly like an absent title: the title-replacement
branch is skipped and the `removeTitle` branch decides the result. -/
theorem c10_empty_title_behaves_as_absent (rt : Bool) (t : String) :
    rewriteHeading (some "") rt t = rewriteHeading none rt t
    ∧ rewriteHeading (some "") rt t
        = (if rt then replaceFirstHeading "" t else t) := by
  cases rt <;> exact ⟨rfl, rfl⟩

/-! ## Claim theorems: the command handler -/

/-- C1: on a valid dry-run invocation (template fetched, rendering
succeeded, `dry-run` set) the handler prints the final rewritten text to
standard output, exits 0, and the write operation is never invoked: the
outcome is the same whatever the write oracle would answer. -/
theorem c1_dry_run_prints_without_write (fmt : String → String)
    (fetch : FetchResult) (write : String → String → WriteResult) (a : Argv)
    (r : String)
    (hc : fetch.code = 0)
    (hr : renderTemplate fmt (scopeOf a) fetch.template = Except.ok r)
    (hd : a.dryRun = true) :
    runCommand fmt fetch write a
        = Outcome.dryRun (rewriteHeading a.title a.removeTitle r)
    ∧ (runCommand fmt fetch write a).exitCode = some 0
    ∧ (runCommand fmt fetch write a).stdoutText
        = rewriteHeading a.title a.removeTitle r
    ∧ (runCommand fmt fetch write a).writeCalled = false
    ∧ ∀ write2 : String → String → WriteResult,
        runCommand fmt fetch write2 a = runCommand fmt fetch write a := by
  have hrun : ∀ w : String → String → WriteResult,
      runCommand fmt fetch w a
        = Outcome.dryRun (rewriteHeading a.title a.removeTitle r) := by
    intro w
    unfold runCommand
    simp [hc, hr, hd]
  exact ⟨hrun write, by rw [hrun write]; rfl, by rw [hrun write]; rfl,
    by rw [hrun write]; rfl, fun w2 => (hrun w2).trans (hrun write).symm⟩

/-- Witness for C1: a dry-run over the one-chunk template `# T\nhello`
prints the heading-stripped text and never consults the write oracle. -/
theorem c1_dry_run_prints_without_write_witness :
    runCommand (fun _ => "") ⟨0, [Chunk.text "# T\nhello"], []⟩
        (fun _ _ => ⟨1, [98, 111, 111, 109]⟩)
        ⟨"tpl", "note.md", "2024-01-01", none, true, true, []⟩
      = Outcome.dryRun "\nhello" :=
  (c1_dry_run_prints_without_write (fun _ => "")
    ⟨0, [Chunk.text "# T\nhello"], []⟩ (fun _ _ => ⟨1, [98, 111, 111, 109]⟩)
    ⟨"tpl", "note.md", "2024-01-01", none, true, true, []⟩
    "# T\nhello" rfl rfl rfl).1

/-- C2: at a failing fetch (exit 1, stderr bytes 110 111, the UTF-8 text
`no`) the handler does exit 1 and never calls the write operation, but the
error stream receives the inspect rendering of the undecoded byte array,
`Uint8Array(2) [ 110, 111 ]`, not the diagnostic text `no` the claim
asserts: src/index.ts:108 passes the raw `Uint8Array` to `console.error`
while line 113 decodes standard output, so the missing decode is a slip in
the code. -/
theorem c2_stderr_dump_not_verbatim :
    runCommand (fun _ => "") ⟨1, [], [110, 111]⟩ (fun _ _ => ⟨0, []⟩)
        ⟨"tpl", "note.md", "2024-01-01", none, true, false, []⟩
      = Outcome.fetchError [110, 111]
    ∧ (runCommand (fun _ => "") ⟨1, [], [110, 111]⟩ (fun _ _ => ⟨0, []⟩)
        ⟨"tpl", "note.md", "2024-01-01", none, true, false, []⟩).exitCode
      = some 1
    ∧ (runCommand (fun _ => "") ⟨1, [], [110, 111]⟩ (fun _ _ => ⟨0, []⟩)
        ⟨"tpl", "note.md", "2024-01-01", none, true, false, []⟩).writeCalled
      = false
    ∧ (runCommand (fun _ => "") ⟨1, [], [110, 111]⟩ (fun _ _ => ⟨0, []⟩)
        ⟨"tpl", "note.md", "2024-01-01", none, true, false, []⟩).stderrText
      = "Uint8Array(2) [ 110, 111 ]"
    ∧ asciiDecode [110, 111] = "no"
    ∧ (runCommand (fun _ => "") ⟨1, [], [110, 111]⟩ (fun _ _ => ⟨0, []⟩)
        ⟨"tpl", "note.md", "2024-01-01", none, true, false, []⟩).stderrText
      ≠ asciiDecode [110, 111] := by
  decide

/-- C5: the exit-code structure the claim states does hold — evaluated
below, a failing write exits 1, a successful creation exits 0 after printing
the confirmation, and a dry-run exits 0 — but on write failure the error
stream receives the inspect rendering of the undecoded stderr bytes
(`Uint8Array(3) [ 98, 97, 100 ]` for the text `bad`), not the diagnostic
text: src/index.ts:137 passes the raw `Uint8Array` to `console.error`. -/
theorem c5_exit_codes_eval :
    runCommand (fun _ => "") ⟨0, [Chunk.text "body"], []⟩
        (fun _ _ => ⟨1, [98, 97, 100]⟩)
        ⟨"tpl", "note.md", "2024-01-01", none, true, false, []⟩
      = Outcome.writeError [98, 97, 100]
    ∧ (runCommand (fun _ => "") ⟨0, [Chunk.text "body"], []⟩
        (fun _ _ => ⟨1, [98, 97, 100]⟩)
        ⟨"tpl", "note.md", "2024-01-01", none, true, false, []⟩).exitCode
      = some 1
    ∧ (runCommand (fun _ => "") ⟨0, [Chunk.text "body"], []⟩
        (fun _ _ => ⟨1, [98, 97, 100]⟩)
        ⟨"tpl", "note.md", "2024-01-01", none, true, false, []⟩).stderrText
      = "Uint8Array(3) [ 98, 97, 100 ]"
    ∧ asciiDecode [98, 97, 100] = "bad"
    ∧ (runCommand (fun _ => "") ⟨0, [Chunk.text "body"], []⟩
        (fun _ _ => ⟨1, [98, 97, 100]⟩)
        ⟨"tpl", "note.md", "2024-01-01", none, true, false, []⟩).stderrText
      ≠ asciiDecode [98, 97, 100]
    ∧ runCommand (fun _ => "") ⟨0, [Chunk.text "body"], []⟩
        (fun _ _ => ⟨0, []⟩)
        ⟨"tpl", "note.md", "2024-01-01", none, true, false, []⟩
      = Outcome.created "note.md" "body"
    ∧ (runCommand (fun _ => "") ⟨0, [Chunk.text "body"], []⟩
        (fun _ _ => ⟨0, []⟩)
        ⟨"tpl", "note.md", "2024-01-01", none, true, false, []⟩).exitCode
      = some 0
    ∧ (runCommand (fun _ => "") ⟨0, [Chunk.text "body"], []⟩
        (fun _ _ => ⟨0, []⟩)
        ⟨"tpl", "note.md", "2024-01-01", none, true, false, []⟩).stdoutText
      = "Note created.\n"
    ∧ (runCommand (fun _ => "") ⟨0, [Chunk.text "body"], []⟩
        (fun _ _ => ⟨1, [98, 97, 100]⟩)
        ⟨"tpl", "note.md", "2024-01-01", none, true, true, []⟩).exitCode
      = some 0 := by
  decide

theorem lookupVar_isSome_of_mem (l : List (String × Value)) (n : String)
    (h : n ∈ l.map Prod.fst) : (lookupVar l n).isSome = true := by
  induction l with
  | nil => simp at h
  | cons x xs ih =>
    rw [List.map_cons] at h
    unfold lookupVar
    by_cases hx : (x.1 == n) = true
    · rw [if_pos hx]
      rfl
    · rw [if_neg hx]
      rcases List.mem_cons.mp h with h1 | h2
      · exact absurd (by simp [h1]) hx
      · exact ih h2

/-- C6: the scope handed to the renderer is the command-line mapping merged
with the date-formatting function under the reserved name `moment`: every
named variable supplied on the command line resolves in that scope, and the
reserved name resolves to the date-formatting capability. -/
theorem c6_scope_merges_argv_with_moment (a : Argv) (n : String)
    (h : n ∈ (argvVars a).map Prod.fst) :
    (lookupVar (scopeOf a) n).isSome = true
    ∧ lookupVar (scopeOf a) "moment" = some Value.momentFn := by
  constructor
  · apply lookupVar_isSome_of_mem
    show n ∈ (("moment", Value.momentFn) :: argvVars a).map Prod.fst
    simp only [List.map_cons, List.mem_cons]
    exact Or.inr h
  · rfl

/-- Witness for C6: the pass-through variable `project` supplied on the
command line resolves in the render scope, and so does `moment`. -/
theorem c6_scope_merges_argv_with_moment_witness :
    (lookupVar
        (scopeOf ⟨"tpl", "note.md", "2024-01-01", some "Ti", true, false,
          [("project", "X")]⟩) "project").isSome = true
    ∧ lookupVar
        (scopeOf ⟨"tpl", "note.md", "2024-01-01", some "Ti", true, false,
          [("project", "X")]⟩) "moment" = some Value.momentFn :=
  c6_scope_merges_argv_with_moment
    ⟨"tpl", "note.md", "2024-01-01", some "Ti", true, false,
      [("project", "X")]⟩ "project" (by decide)

theorem renderTemplate_error_of_unbound (fmt : String → String)
    (scope : List (String × Value)) (n : String) (cs : List Chunk)
    (hmem : Chunk.var n ∈ cs) (hn : lookupVar scope n = none) :
    ∃ e, renderTemplate fmt scope cs = Except.error e := by
  induction cs with
  | nil => simp at hmem
  | cons c cs ih =>
    rcases List.mem_cons.mp hmem with h1 | h2
    · subst h1
      exact ⟨"undefined variable " ++ n, by simp [renderTemplate, renderChunk, hn]⟩
    · obtain ⟨e, he⟩ := ih h2
      cases hrc : renderChunk fmt scope c with
      | error e2 => exact ⟨e2, by simp [renderTemplate, hrc]⟩
      | ok s => exact ⟨e, by simp [renderTemplate, hrc, he]⟩

/-- C8: if the fetched template references a variable that is unbound in the
render scope, rendering fails and the run aborts with a rendering error:
nothing is printed to standard output, the exit code is not the success
code, and the write operation is never invoked (the outcome is independent
of the write oracle) — the undefined reference is never replaced by an empty
string. -/
theorem c8_undefined_variable_aborts (fmt : String → String)
    (fetch : FetchResult) (write : String → String → WriteResult) (a : Argv)
    (n : String)
    (hc : fetch.code = 0)
    (hmem : Chunk.var n ∈ fetch.template)
    (hn : lookupVar (scopeOf a) n = none) :
    (∃ e, runCommand fmt fetch write a = Outcome.renderError e)
    ∧ (runCommand fmt fetch write a).writeCalled = false
    ∧ (runCommand fmt fetch write a).stdoutText = ""
    ∧ (runCommand fmt fetch write a).exitCode ≠ some 0
    ∧ ∀ write2 : String → String → WriteResult,
        runCommand fmt fetch write2 a = runCommand fmt fetch write a := by
  obtain ⟨e, he⟩ :=
    renderTemplate_error_of_unbound fmt (scopeOf a) n fetch.template hmem hn
  have hrun : ∀ w : String → String → WriteResult,
      runCommand fmt fetch w a = Outcome.renderError e := by
    intro w
    unfold runCommand
    simp [hc, he]
  refine ⟨⟨e, hrun write⟩, ?_, ?_, ?_,
    fun w2 => (hrun w2).trans (hrun write).symm⟩
  · rw [hrun write]
    rfl
  · rw [hrun write]
    rfl
  · rw [hrun write]
    simp [Outcome.exitCode]

/-- Witness for C8: a template consisting of the single reference to the
unbound variable `missing` aborts the run with a rendering error. -/
theorem c8_undefined_variable_aborts_witness :
    ∃ e, runCommand (fun _ => "") ⟨0, [Chunk.var "missing"], []⟩
        (fun _ _ => ⟨0, []⟩)
        ⟨"tpl", "note.md", "2024-01-01", none, true, false, []⟩
      = Outcome.renderError e :=
  (c8_undefined_variable_aborts (fun _ => "")
    ⟨0, [Chunk.var "missing"], []⟩ (fun _ _ => ⟨0, []⟩)
    ⟨"tpl", "note.md", "2024-01-01", none, true, false, []⟩ "missing"
    rfl (by decide) (by decide)).1

/-- C9: the `--date` parameter is a string; a supplied value is used as
given, and when the option is absent it resolves to the current date as
formatted ISO-like by the date-formatting capability. -/
theorem c9_date_defaults_to_current_date (now d : String) :
    resolveDate now none = now ∧ resolveDate now (some d) = d :=
  ⟨rfl, rfl⟩
